import Mathlib

/-!
Verification development for the `ApiKeyManager` key-pool manager
(`src/ApiKeyManager.py`).

Shallow embedding conventions:
* Wall-clock UTC instants (`datetime` values) are modelled as `Nat` seconds
  since the epoch; a day is `86400` seconds and an hour `3600` seconds.
  `datetime.combine(d.date(), time(h))` becomes `(t / 86400) * 86400 + h * 3600`.
* Monotonic timestamps (`time.monotonic()`) are modelled as `Int` seconds.
* The stored `last_reset_time` string is modelled by `StoredTime`: a parseable
  ISO string is `.ok t`, a non-empty unparseable string is `.bad`, a missing
  or empty value is `.missing`.
* Python dicts (which preserve insertion order) are modelled as association
  lists; insertion appends at the end.
* Keys are modelled as `String`; the `not isinstance(api_key, str)` guard in
  the source coincides with the empty-string guard (both take the same early
  branch), so the empty string stands for every invalid key input.
* Persistence is modelled by a `file : Option SavedFile` field together with a
  `save_count` counter; `_save_data_internal` writes the file and bumps the
  counter (the IO-failure path, which is logged and swallowed, is not modelled).
-/

/-- The stored `last_reset_time` value as seen by the parsing code. -/
inductive StoredTime where
  | ok (t : Nat)
  | bad
  | missing
deriving DecidableEq, Repr

/-- The four optional configuration attributes of the manager
(`daily_limit`, `requests_per_minute`, `reset_hour_utc`, `reset_interval_days`). -/
structure Config where
  daily_limit : Option Nat
  requests_per_minute : Option Nat
  reset_hour_utc : Option Nat
  reset_interval_days : Option Nat
deriving DecidableEq, Repr

/-- The all-`None` configuration (also the constructor's default arguments). -/
def emptyConfig : Config :=
  { daily_limit := none, requests_per_minute := none,
    reset_hour_utc := none, reset_interval_days := none }

/-- The JSON state file: `keys` (each record's `usage_today` may be missing),
optional `config` object, and the stored `last_reset_time`. -/
structure SavedFile where
  keys : List (String × Option Nat)
  config : Option Config
  last_reset_time : StoredTime
deriving DecidableEq, Repr

/-- In-memory state of one `ApiKeyManager` instance: `data['keys']`,
`data['last_reset_time']`, the merged config attributes, `_key_timestamps`,
the `api_keys` attribute, plus the modelled disk file and a persistence
call counter. -/
structure ManagerState where
  keys : List (String × Nat)
  last_reset_time : StoredTime
  config : Config
  key_timestamps : List (String × List Int)
  api_keys : List String
  file : Option SavedFile
  save_count : Nat
deriving DecidableEq, Repr

/-- Dictionary lookup on an association list (first binding wins, matching
Python dict semantics on the distinct-key lists the code builds). -/
def lookupKey {α : Type} (l : List (String × α)) (k : String) : Option α :=
  (l.find? (fun p => p.1 == k)).map (fun p => p.2)

/-- Error taxonomy of the source: `ValueError` on bad input or bad config,
`ApiKeyManagerError` on duplicate/missing/unknown keys, and the two
distinguishable `NoAvailableKeyError` messages of `get_key`. -/
inductive Err where
  | validationError
  | duplicateKey
  | notFound
  | unknownKey
  | noKeysConfigured
  | allExhausted
  | configError
deriving DecidableEq, Repr

deriving instance DecidableEq for Except

/-- `now_utc >= last_reset_time + timedelta(days=self.reset_interval_days)`
guarded by `self.reset_interval_days is not None` (line 237). -/
def intervalDue (reset_interval_days : Option Nat) (last now : Nat) : Bool :=
  match reset_interval_days with
  | some d => decide (last + d * 86400 ≤ now)
  | none => false

/-- Lines 241-243: `potential = datetime.combine(last.date(), time(h, utc))`;
`next_reset = potential + 1 day if potential <= last else potential`. -/
def nextResetInstant (h last : Nat) : Nat :=
  let potential := (last / 86400) * 86400 + h * 3600
  if potential ≤ last then potential + 86400 else potential

/-- `now_utc >= next_reset` guarded by `self.reset_hour_utc is not None`
(lines 240-244). -/
def hourDue (reset_hour_utc : Option Nat) (last now : Nat) : Bool :=
  match reset_hour_utc with
  | some h => decide (nextResetInstant h last ≤ now)
  | none => false

/-- The `reason` strings of `_check_and_reset_internal`. -/
inductive ResetReason where
  | intervalElapsed
  | dailyHour
deriving DecidableEq, Repr

/-- Lines 236-245: `reset_needed, reason` — interval checked first, the hour
trigger only `if not reset_needed`. -/
def resetReason (cfg : Config) (last now : Nat) : Option ResetReason :=
  if intervalDue cfg.reset_interval_days last now then some .intervalElapsed
  else if hourDue cfg.reset_hour_utc last now then some .dailyHour
  else none

/-- `_save_data_internal` (lines 194-216): re-validate `last_reset_time`
(forcing it to now when invalid), then dump `self.data` to the file and count
the persistence call. -/
def saveData (st : ManagerState) (now : Nat) : ManagerState :=
  let lrt := match st.last_reset_time with
    | .ok t => StoredTime.ok t
    | _ => StoredTime.ok now
  { st with
      last_reset_time := lrt,
      file := some { keys := st.keys.map (fun p => (p.1, some p.2)),
                     config := some st.config,
                     last_reset_time := lrt },
      save_count := st.save_count + 1 }

/-- Lines 247-256 of `_check_and_reset_internal`: given the parsed `last`,
zero every record's `usage_today`, stamp `last_reset_time = now` and save when
a trigger fired, otherwise do nothing. -/
def applyResetDecision (st : ManagerState) (last now : Nat) : ManagerState :=
  match resetReason st.config last now with
  | some _ =>
      saveData { st with keys := st.keys.map (fun p => (p.1, 0)),
                         last_reset_time := StoredTime.ok now } now
  | none => st

/-- `_check_and_reset_internal` (lines 219-256): a missing value is repaired
to now and the check continues with that value; an unparseable value is
repaired to now and the check is skipped; a parseable value feeds the
reset decision. -/
def checkAndReset (st : ManagerState) (now : Nat) : ManagerState :=
  match st.last_reset_time with
  | .missing => applyResetDecision { st with last_reset_time := .ok now } now now
  | .bad => { st with last_reset_time := .ok now }
  | .ok last => applyResetDecision st last now

/-- Body of the cleanup loop (lines 263-267): for each tracked key in order,
keep only timestamps `>= cutoff` where `cutoff = now - 60`; a key whose list
of valid timestamps is empty is deleted, otherwise its list is replaced. -/
def evictStaleWindows (tsmap : List (String × List Int)) (mono : Int) :
    List (String × List Int) :=
  match tsmap with
  | [] => []
  | p :: rest =>
      if (p.2.filter (fun ts => decide (mono - 60 ≤ ts))).isEmpty
      then evictStaleWindows rest mono
      else (p.1, p.2.filter (fun ts => decide (mono - 60 ≤ ts))) ::
        evictStaleWindows rest mono

/-- `_cleanup_timestamps_internal` (lines 258-267): no-op when
`requests_per_minute` is falsy (`None` or `0`); otherwise evict per key. -/
def cleanupTimestamps (st : ManagerState) (mono : Int) : ManagerState :=
  match st.config.requests_per_minute with
  | none => st
  | some 0 => st
  | some (_ + 1) => { st with key_timestamps := evictStaleWindows st.key_timestamps mono }

/-- `add_key` (lines 270-278). The error value carries the in-memory state at
the moment the exception is raised (Python mutations before the raise stick). -/
def add_key (st : ManagerState) (api_key : String) (now : Nat) :
    Except (Err × ManagerState) ManagerState :=
  if api_key = "" then .error (.validationError, st)
  else
    let st1 := checkAndReset st now
    if (lookupKey st1.keys api_key).isSome then .error (.duplicateKey, st1)
    else .ok (saveData { st1 with keys := st1.keys ++ [(api_key, 0)] } now)

/-- `remove_key` (lines 280-288). -/
def remove_key (st : ManagerState) (api_key : String) (now : Nat) :
    Except (Err × ManagerState) ManagerState :=
  let st1 := checkAndReset st now
  if (lookupKey st1.keys api_key).isNone then .error (.notFound, st1)
  else .ok (saveData
      { st1 with
          keys := st1.keys.filter (fun p => !(p.1 == api_key)),
          key_timestamps := st1.key_timestamps.filter (fun p => !(p.1 == api_key)) } now)

/-- `len(self._key_timestamps.get(key, []))` (line 300). -/
def countInWindow (tsmap : List (String × List Int)) (k : String) : Nat :=
  ((lookupKey tsmap k).getD []).length

/-- The loop body of `get_key` (lines 297-302): a key survives both `continue`
guards iff the daily limit is unset or not yet reached, and the per-minute
limit is unset or the window count is below it. -/
def keyEligible (cfg : Config) (tsmap : List (String × List Int))
    (p : String × Nat) : Bool :=
  (match cfg.daily_limit with
   | some l => decide (p.2 < l)
   | none => true)
  && (match cfg.requests_per_minute with
   | some r => decide (countInWindow tsmap p.1 < r)
   | none => true)

/-- The state `get_key` scans after its two internal maintenance calls
(lines 293-294). -/
def selectScanState (st : ManagerState) (now : Nat) (mono : Int) : ManagerState :=
  cleanupTimestamps (checkAndReset st now) mono

/-- `get_key` (lines 290-304): reconcile, evict, then return the first
eligible key in insertion order, or one of the two `NoAvailableKeyError`s. -/
def get_key (st : ManagerState) (now : Nat) (mono : Int) :
    ManagerState × Except Err String :=
  let st1 := selectScanState st now mono
  if st1.keys.isEmpty then (st1, .error .noKeysConfigured)
  else
    match st1.keys.find? (keyEligible st1.config st1.key_timestamps) with
    | some p => (st1, .ok p.1)
    | none => (st1, .error .allExhausted)

/-- `self._key_timestamps[api_key].append(...)` on a `defaultdict(list)`:
append to the existing window, or create a fresh singleton entry. -/
def appendTimestamp (tsmap : List (String × List Int)) (k : String) (mono : Int) :
    List (String × List Int) :=
  if (lookupKey tsmap k).isSome then
    tsmap.map (fun p => if p.1 == k then (p.1, p.2 ++ [mono]) else p)
  else tsmap ++ [(k, [mono])]

/-- `record_usage` (lines 306-317): falsy key → log and return the state
untouched; unknown key → raise after the reset check already ran; otherwise
bump `usage_today`, append a monotonic timestamp when `requests_per_minute`
is set (`is not None`, so `0` counts as set here), and save. -/
def record_usage (st : ManagerState) (api_key : String) (now : Nat) (mono : Int) :
    Except (Err × ManagerState) ManagerState :=
  if api_key = "" then .ok st
  else
    let st1 := checkAndReset st now
    if (lookupKey st1.keys api_key).isNone then .error (.unknownKey, st1)
    else
      let newKeys := st1.keys.map (fun p => if p.1 == api_key then (p.1, p.2 + 1) else p)
      let st2 := { st1 with keys := newKeys }
      let st3 := match st2.config.requests_per_minute with
        | some _ =>
            { st2 with key_timestamps := appendTimestamp st2.key_timestamps api_key mono }
        | none => st2
      .ok (saveData st3 now)

/-- `get_usage_stats` (lines 319-323): reconcile, then return a snapshot of
the key records. -/
def get_usage_stats (st : ManagerState) (now : Nat) :
    ManagerState × List (String × Nat) :=
  let st1 := checkAndReset st now
  (st1, st1.keys)

/-- The per-field merge of lines 125-140: a non-`None` constructor argument
wins, otherwise the saved value, otherwise `None`. -/
def mergeField (initVal savedVal : Option Nat) : Option Nat :=
  match initVal with
  | some v => some v
  | none => savedVal

/-- The config-merge loop over the four parameters (lines 123-140). -/
def mergeConfig (init saved : Config) : Config :=
  { daily_limit := mergeField init.daily_limit saved.daily_limit,
    requests_per_minute := mergeField init.requests_per_minute saved.requests_per_minute,
    reset_hour_utc := mergeField init.reset_hour_utc saved.reset_hour_utc,
    reset_interval_days := mergeField init.reset_interval_days saved.reset_interval_days }

/-- The final constructor validation (lines 89-92); on `Nat` the `0 <= hour`
half is automatic. -/
def validConfig (cfg : Config) : Bool :=
  (match cfg.reset_hour_utc with
   | some h => decide (h ≤ 23)
   | none => true)
  && (match cfg.reset_interval_days with
   | some d => decide (1 ≤ d)
   | none => true)

/-- Construction from an existing state file: `_load_or_initialize_data`
(lines 107-157) — repair missing `usage_today` to 0, repair a missing or
unparseable `last_reset_time` to now, merge the saved config with the
constructor arguments — followed by the load-time reset check and timestamp
cleanup (lines 181-183), the validation of lines 89-92 and the `api_keys`
snapshot of line 95 (see `loadFromFile` below). A missing `last_reset_time`
is repaired to now (lines 116-118) and an unparseable one is repaired to now
(lines 142-147); `parsedLoadTime` combines the two repairs. -/
def parsedLoadTime (t : StoredTime) (now : Nat) : StoredTime :=
  match t with
  | .ok v => StoredTime.ok v
  | _ => StoredTime.ok now

/-- The in-memory state right after the load-and-repair steps of
`_load_or_initialize_data` (lines 107-157), before the load-time reset check. -/
def loadedState (file : SavedFile) (initArgs : Config) (now : Nat) : ManagerState :=
  { keys := file.keys.map (fun p => (p.1, p.2.getD 0)),
    last_reset_time := parsedLoadTime file.last_reset_time now,
    config := mergeConfig initArgs (file.config.getD emptyConfig),
    key_timestamps := [], api_keys := [], file := some file, save_count := 0 }

def loadFromFile (file : SavedFile) (initArgs : Config) (now : Nat) (mono : Int) :
    Except Err ManagerState :=
  let st1 := cleanupTimestamps (checkAndReset (loadedState file initArgs now) now) mono
  if validConfig (mergeConfig initArgs (file.config.getD emptyConfig)) then
    .ok { st1 with api_keys := st1.keys.map Prod.fst }
  else .error .configError

/-- The timestamp value actually persisted by `_save_data_internal`: the
stored instant when parseable, otherwise the repair value `now`. -/
def repairedTime (st : ManagerState) (now : Nat) : Nat :=
  match st.last_reset_time with
  | .ok t => t
  | _ => now

/-- The file contents written by `_save_data_internal`. -/
def savedFileOf (st : ManagerState) (now : Nat) : SavedFile :=
  { keys := st.keys.map (fun p => (p.1, some p.2)),
    config := some st.config,
    last_reset_time := .ok (repairedTime st now) }

/-- The repaired in-memory state a fresh construction obtains from
`savedFileOf st now` with all-default constructor arguments. -/
def reloadBase (st : ManagerState) (now : Nat) : ManagerState :=
  { keys := st.keys, last_reset_time := .ok (repairedTime st now),
    config := st.config, key_timestamps := [], api_keys := [],
    file := some (savedFileOf st now), save_count := 0 }

/-- Projection of an operation result onto one key's rate window (same state
whether the operation succeeded or raised). -/
def resultWindow (r : Except (Err × ManagerState) ManagerState) (k : String) :
    Option (List Int) :=
  match r with
  | .ok st => lookupKey st.key_timestamps k
  | .error (_, st) => lookupKey st.key_timestamps k

/-! ### Concrete states used to instantiate the theorems -/

/-- A manager with an empty pool and no limits. -/
def stEmpty : ManagerState :=
  { keys := [], last_reset_time := .ok 0, config := emptyConfig,
    key_timestamps := [], api_keys := [], file := none, save_count := 0 }

/-- A schedule with only `reset_hour_utc = 3`. -/
def cfgHour3 : Config := { emptyConfig with reset_hour_utc := some 3 }

/-- Scenario state for the daily-hour trigger: one key with some usage,
`last_reset_time` = day 1 at 04:00 UTC (100800 s). -/
def stScenario : ManagerState :=
  { keys := [("a", 5)], last_reset_time := .ok 100800, config := cfgHour3,
    key_timestamps := [], api_keys := ["a"], file := none, save_count := 0 }

/-- A pool with one key `"k"` at usage 2 and no limits. -/
def stPlain : ManagerState :=
  { keys := [("k", 2)], last_reset_time := .ok 0, config := emptyConfig,
    key_timestamps := [], api_keys := ["k"], file := none, save_count := 0 }

/-- A pool with `requests_per_minute = 5` and one stale window entry for
key `"k"` (monotonic timestamp 0). -/
def stStale : ManagerState :=
  { keys := [("k", 1)], last_reset_time := .ok 0,
    config := { emptyConfig with requests_per_minute := some 5 },
    key_timestamps := [("k", [0])], api_keys := ["k"], file := none, save_count := 0 }

/-- A pool with `reset_interval_days = 1`, anchored at time 0, with one used
key: a reset is due at `now = 86400`. -/
def stDue : ManagerState :=
  { keys := [("a", 5)], last_reset_time := .ok 0,
    config := { emptyConfig with reset_interval_days := some 1 },
    key_timestamps := [], api_keys := ["a"], file := none, save_count := 0 }

/-- A persisted file carrying `daily_limit = 50` and
`requests_per_minute = 5`. -/
def fileSaved : SavedFile :=
  { keys := [("k", some 7)],
    config := some { emptyConfig with daily_limit := some 50, requests_per_minute := some 5 },
    last_reset_time := .ok 100 }

/-- Constructor arguments overriding only `requests_per_minute`. -/
def argsRpm20 : Config := { emptyConfig with requests_per_minute := some 20 }

/-- The state produced by `record_usage stPlain "k"` (usage bumped to 3,
one persistence call). -/
def stPlainAfter : ManagerState :=
  { keys := [("k", 3)], last_reset_time := .ok 0, config := emptyConfig,
    key_timestamps := [], api_keys := ["k"],
    file := some { keys := [("k", some 3)], config := some emptyConfig,
                   last_reset_time := .ok 0 },
    save_count := 1 }

/-- The state produced by reconciling `stDue` at `now = 86400`: usage zeroed,
anchor advanced, one persistence call. -/
def stDueReconciled : ManagerState :=
  { keys := [("a", 0)], last_reset_time := .ok 86400,
    config := { emptyConfig with reset_interval_days := some 1 },
    key_timestamps := [], api_keys := ["a"],
    file := some { keys := [("a", some 0)],
                   config := some { emptyConfig with reset_interval_days := some 1 },
                   last_reset_time := .ok 86400 },
    save_count := 1 }

/-- A state whose stored `last_reset_time` is an unparseable string. -/
def stBad : ManagerState :=
  { keys := [("k", 2)], last_reset_time := .bad, config := emptyConfig,
    key_timestamps := [], api_keys := ["k"], file := none, save_count := 0 }

/-- The manager obtained by constructing from `fileSaved` with `argsRpm20`
at `now = 200`. -/
def mLoaded : ManagerState :=
  { keys := [("k", 7)], last_reset_time := .ok 100,
    config := { daily_limit := some 50, requests_per_minute := some 20,
                reset_hour_utc := none, reset_interval_days := none },
    key_timestamps := [], api_keys := ["k"], file := some fileSaved, save_count := 0 }

/-! ### Frame lemmas about the internal maintenance functions -/

theorem saveData_keys (st : ManagerState) (now : Nat) :
    (saveData st now).keys = st.keys := rfl

theorem saveData_config (st : ManagerState) (now : Nat) :
    (saveData st now).config = st.config := rfl

theorem saveData_api_keys (st : ManagerState) (now : Nat) :
    (saveData st now).api_keys = st.api_keys := rfl

theorem saveData_key_timestamps (st : ManagerState) (now : Nat) :
    (saveData st now).key_timestamps = st.key_timestamps := rfl

theorem saveData_lrt (st : ManagerState) (now : Nat) :
    ∃ t, (saveData st now).last_reset_time = .ok t := by
  unfold saveData
  cases h : st.last_reset_time <;> simp

theorem applyResetDecision_frame (st : ManagerState) (last now : Nat) :
    (applyResetDecision st last now).config = st.config ∧
    (applyResetDecision st last now).api_keys = st.api_keys ∧
    (applyResetDecision st last now).key_timestamps = st.key_timestamps ∧
    (applyResetDecision st last now).keys.map Prod.fst = st.keys.map Prod.fst := by
  unfold applyResetDecision
  split <;> simp [saveData, List.map_map, Function.comp]

theorem applyResetDecision_lrt (st : ManagerState) (last now : Nat) :
    (applyResetDecision st last now).last_reset_time = .ok now ∨
      applyResetDecision st last now = st := by
  unfold applyResetDecision
  split
  · left; simp [saveData]
  · right; rfl

theorem checkAndReset_frame (st : ManagerState) (now : Nat) :
    (checkAndReset st now).config = st.config ∧
    (checkAndReset st now).api_keys = st.api_keys ∧
    (checkAndReset st now).key_timestamps = st.key_timestamps ∧
    (checkAndReset st now).keys.map Prod.fst = st.keys.map Prod.fst := by
  unfold checkAndReset
  cases h : st.last_reset_time with
  | ok last => exact applyResetDecision_frame st last now
  | bad => exact ⟨rfl, rfl, rfl, rfl⟩
  | missing => exact applyResetDecision_frame { st with last_reset_time := .ok now } now now

theorem checkAndReset_lrt (st : ManagerState) (now : Nat) :
    (checkAndReset st now).last_reset_time = .ok now ∨ checkAndReset st now = st := by
  unfold checkAndReset
  cases h : st.last_reset_time with
  | ok last => exact applyResetDecision_lrt st last now
  | bad => left; rfl
  | missing =>
      rcases applyResetDecision_lrt { st with last_reset_time := .ok now } now now with h1 | h1
      · left; exact h1
      · left; rw [h1]

theorem cleanupTimestamps_frame (st : ManagerState) (mono : Int) :
    (cleanupTimestamps st mono).keys = st.keys ∧
    (cleanupTimestamps st mono).config = st.config ∧
    (cleanupTimestamps st mono).last_reset_time = st.last_reset_time ∧
    (cleanupTimestamps st mono).api_keys = st.api_keys ∧
    (cleanupTimestamps st mono).save_count = st.save_count ∧
    (cleanupTimestamps st mono).file = st.file := by
  unfold cleanupTimestamps
  split <;> simp

/-! ### List-level helper lemmas -/

theorem lookupKey_isSome_congr {α β : Type} (k : String) :
    ∀ (l1 : List (String × α)) (l2 : List (String × β)),
      l1.map Prod.fst = l2.map Prod.fst →
      (lookupKey l1 k).isSome = (lookupKey l2 k).isSome := by
  intro l1
  induction l1 with
  | nil =>
      intro l2 h
      rw [List.map_nil] at h
      rw [List.eq_nil_of_map_eq_nil h.symm]
      rfl
  | cons p t ih =>
      intro l2 h
      cases l2 with
      | nil => simp at h
      | cons q t2 =>
          simp only [List.map_cons, List.cons.injEq] at h
          obtain ⟨h1, h2⟩ := h
          by_cases hk : p.1 = k
          · simp [lookupKey, List.find?_cons, hk, h1 ▸ hk]
          · have hk2 : ¬ q.1 = k := h1 ▸ hk
            simpa [lookupKey, List.find?_cons, hk, hk2] using ih t2 h2

theorem find?_eq_some_first {α : Type} (p : α → Bool) :
    ∀ (l : List α) (a : α),
      l.find? p = some a ↔
        ∃ i, ∃ h : i < l.length, l.get ⟨i, h⟩ = a ∧ p a = true ∧
          ∀ j, ∀ hj : j < l.length, j < i → p (l.get ⟨j, hj⟩) = false := by
  intro l
  induction l with
  | nil => intro a; simp
  | cons x t ih =>
      intro a
      rw [List.find?_cons]
      cases hx : p x with
      | true =>
          constructor
          · intro hsome
            have hax : x = a := by simpa using hsome
            subst hax
            exact ⟨0, by simp, rfl, hx, fun j hj hj0 => absurd hj0 (Nat.not_lt_zero j)⟩
          · rintro ⟨i, hi, hget, hpa, hfirst⟩
            cases i with
            | zero => simpa using congrArg some hget
            | succ n =>
                have h0 := hfirst 0 (by simp) (Nat.succ_pos n)
                simp [hx] at h0
      | false =>
          rw [ih]
          constructor
          · rintro ⟨i, hi, hget, hpa, hfirst⟩
            refine ⟨i + 1, by simpa using Nat.succ_lt_succ hi, by simpa using hget, hpa, ?_⟩
            intro j hj hji
            cases j with
            | zero => simpa using hx
            | succ m =>
                have hm : m < t.length := by simpa using Nat.lt_of_succ_lt_succ hj
                simpa using hfirst m hm (Nat.lt_of_succ_lt_succ hji)
          · rintro ⟨i, hi, hget, hpa, hfirst⟩
            cases i with
            | zero =>
                have hxa : x = a := hget
                subst hxa
                rw [hx] at hpa
                cases hpa
            | succ n =>
                have hn : n < t.length := by simpa using Nat.lt_of_succ_lt_succ hi
                refine ⟨n, hn, by simpa using hget, hpa, ?_⟩
                intro j hj hji
                have := hfirst (j + 1) (by simpa using Nat.succ_lt_succ hj)
                  (Nat.succ_lt_succ hji)
                simpa using this

/-! ### Spec-side predicates (formalising the specification's wording, to be
compared with the code-side definitions) -/

/-- Spec wording for selection eligibility: `dailyLimit` is absent or
`usageToday < dailyLimit`, and `requestsPerMinute` is absent or
`countInWindow(key) < requestsPerMinute`. -/
def EligibleSpec (cfg : Config) (tsmap : List (String × List Int))
    (p : String × Nat) : Prop :=
  (cfg.daily_limit = none ∨ ∃ l, cfg.daily_limit = some l ∧ p.2 < l) ∧
  (cfg.requests_per_minute = none ∨
    ∃ r, cfg.requests_per_minute = some r ∧ countInWindow tsmap p.1 < r)

theorem eligibleSpec_iff (cfg : Config) (tsmap : List (String × List Int))
    (p : String × Nat) :
    EligibleSpec cfg tsmap p ↔ keyEligible cfg tsmap p = true := by
  obtain ⟨dl, rpm, rh, ri⟩ := cfg
  unfold EligibleSpec keyEligible
  cases dl <;> cases rpm <;> simp

/-- Spec wording for the interval trigger: `resetIntervalDays` is set and
`now ≥ lastResetTime + resetIntervalDays` days. -/
def IntervalCondSpec (cfg : Config) (last now : Nat) : Prop :=
  ∃ d, cfg.reset_interval_days = some d ∧ last + d * 86400 ≤ now

/-- Spec wording for the same-day candidate instant: that UTC hour on
`lastResetTime`'s date. -/
def sameDayInstant (last h : Nat) : Nat := (last / 86400) * 86400 + h * 3600

/-- Spec wording for the hour trigger: the next reset instant is the same-day
instant when it is strictly after `lastResetTime`, otherwise that instant on
the following date; reset iff `now ≥` that instant. -/
def HourCondSpec (cfg : Config) (last now : Nat) : Prop :=
  ∃ h, cfg.reset_hour_utc = some h ∧
    (if last < sameDayInstant last h then sameDayInstant last h
     else sameDayInstant last h + 86400) ≤ now

theorem intervalDue_iff (cfg : Config) (last now : Nat) :
    intervalDue cfg.reset_interval_days last now = true ↔
      IntervalCondSpec cfg last now := by
  unfold intervalDue IntervalCondSpec
  cases h : cfg.reset_interval_days <;> simp

theorem hourDue_iff (cfg : Config) (last now : Nat) :
    hourDue cfg.reset_hour_utc last now = true ↔ HourCondSpec cfg last now := by
  unfold hourDue HourCondSpec nextResetInstant sameDayInstant
  cases h : cfg.reset_hour_utc with
  | none => simp
  | some hr =>
      simp only [decide_eq_true_eq, Option.some.injEq]
      constructor
      · intro hle
        refine ⟨hr, rfl, ?_⟩
        rcases Nat.lt_or_ge last ((last / 86400) * 86400 + hr * 3600) with hlt | hge
        · rw [if_pos hlt]
          rw [if_neg (by omega)] at hle
          exact hle
        · rw [if_neg (by omega)]
          rw [if_pos (by omega)] at hle
          exact hle
      · rintro ⟨h2, hh2, hle⟩
        cases hh2
        rcases Nat.lt_or_ge last ((last / 86400) * 86400 + hr * 3600) with hlt | hge
        · rw [if_pos hlt] at hle
          rw [if_neg (by omega)]
          exact hle
        · rw [if_neg (by omega)] at hle
          rw [if_pos (by omega)]
          exact hle

/-- Neither trigger can fire when the anchoring `last` equals `now` (given a
positive interval): the heart of reset idempotence. -/
theorem resetReason_at_now (cfg : Config) (now : Nat)
    (hd : ∀ d, cfg.reset_interval_days = some d → 1 ≤ d) :
    resetReason cfg now now = none := by
  unfold resetReason
  rw [if_neg, if_neg]
  · unfold hourDue
    cases h : cfg.reset_hour_utc with
    | none => simp
    | some hr =>
        simp only [decide_eq_true_eq, not_le]
        unfold nextResetInstant
        have hdm := Nat.div_add_mod now 86400
        have hmod : now % 86400 < 86400 := Nat.mod_lt now (by norm_num)
        by_cases hp : (now / 86400) * 86400 + hr * 3600 ≤ now
        · rw [if_pos hp]
          omega
        · rw [if_neg hp]
          omega
  · unfold intervalDue
    cases h : cfg.reset_interval_days with
    | none => simp
    | some d =>
        have := hd d h
        simp only [decide_eq_true_eq, not_le]
        omega

theorem checkAndReset_of_ok_none (st : ManagerState) (now last : Nat)
    (h : st.last_reset_time = .ok last)
    (hr : resetReason st.config last now = none) :
    checkAndReset st now = st := by
  have hred : checkAndReset st now = applyResetDecision st last now := by
    unfold checkAndReset
    rw [h]
  rw [hred]
  unfold applyResetDecision
  rw [hr]

/-! ### Claim theorems -/

/-- C2: on every reconciliation call the interval condition is evaluated
first; the hour trigger is consulted only when the interval condition does not
hold, with the next reset instant being the configured UTC hour on
`lastResetTime`'s date, pushed to the following date when that same-day
instant is not strictly after `lastResetTime`, and a reset fires iff
`now ≥` that instant; at most one trigger fires per call. Scenario:
`resetHourUtc = 3`, `lastResetTime` = yesterday 04:00 UTC (100800 s):
`now` = today 02:00 UTC (180000 s) fires nothing, `now` = today 03:01 UTC
(183660 s) fires the daily-hour reset. -/
theorem c2_reset_scheduler (cfg : Config) (last now : Nat) :
    (resetReason cfg last now = some .intervalElapsed ↔
      IntervalCondSpec cfg last now) ∧
    (resetReason cfg last now = some .dailyHour ↔
      ¬ IntervalCondSpec cfg last now ∧ HourCondSpec cfg last now) ∧
    (resetReason cfg last now = none ↔
      ¬ IntervalCondSpec cfg last now ∧ ¬ HourCondSpec cfg last now) ∧
    resetReason cfgHour3 100800 180000 = none ∧
    checkAndReset stScenario 180000 = stScenario ∧
    resetReason cfgHour3 100800 183660 = some .dailyHour ∧
    (checkAndReset stScenario 183660).keys = [("a", 0)] ∧
    (checkAndReset stScenario 183660).last_reset_time = .ok 183660 := by
  refine ⟨?_, ?_, ?_, by decide, by decide, by decide, by decide, by decide⟩
  · rw [← intervalDue_iff]
    unfold resetReason
    cases hi : intervalDue cfg.reset_interval_days last now <;>
      cases hh : hourDue cfg.reset_hour_utc last now <;> simp
  · rw [← intervalDue_iff, ← hourDue_iff]
    unfold resetReason
    cases hi : intervalDue cfg.reset_interval_days last now <;>
      cases hh : hourDue cfg.reset_hour_utc last now <;> simp
  · rw [← intervalDue_iff, ← hourDue_iff]
    unfold resetReason
    cases hi : intervalDue cfg.reset_interval_days last now <;>
      cases hh : hourDue cfg.reset_hour_utc last now <;> simp

theorem c2_reset_scheduler_witness :
    resetReason cfgHour3 100800 183660 = some .dailyHour :=
  ((c2_reset_scheduler cfgHour3 100800 183660).2.1).mpr
    ⟨by
        rintro ⟨d, hd, h2⟩
        simp [cfgHour3, emptyConfig] at hd,
      ⟨3, rfl, by norm_num [sameDayInstant]⟩⟩

/-- C7: if a reconciliation call at instant `now` performs a reset (observable
as a persistence call) under a schedule whose `resetIntervalDays` is positive,
a second reconciliation call at the same instant returns the state unchanged —
in particular it performs no reset and no persistence call. -/
theorem c7_reset_idempotent (st : ManagerState) (now : Nat) (d : Nat)
    (hd : st.config.reset_interval_days = some d) (hpos : 1 ≤ d)
    (hfire : (checkAndReset st now).save_count = st.save_count + 1) :
    checkAndReset (checkAndReset st now) now = checkAndReset st now := by
  rcases checkAndReset_lrt st now with hok | hid
  · have hcfg : (checkAndReset st now).config = st.config :=
      (checkAndReset_frame st now).1
    refine checkAndReset_of_ok_none _ now now hok ?_
    rw [hcfg]
    refine resetReason_at_now st.config now ?_
    intro d2 h2
    rw [hd] at h2
    cases h2
    exact hpos
  · rw [hid]
    exact hid

theorem c7_reset_idempotent_witness :
    checkAndReset (checkAndReset stDue 86400) 86400 = checkAndReset stDue 86400 :=
  c7_reset_idempotent stDue 86400 1 rfl (by norm_num) (by decide)

/-- C1: for every pool state, `get_key` scans the (post-reconciliation,
post-eviction) keys in insertion order and returns the first key satisfying
the eligibility predicate (daily limit absent or not reached, per-minute limit
absent or window count below it); on an empty pool it fails with the
"no keys configured" error, and on a non-empty pool in which every key is
ineligible it fails with the distinguishable "all keys exhausted" error. -/
theorem c1_select_key (st : ManagerState) (now : Nat) (mono : Int) :
    ((selectScanState st now mono).keys = [] →
      get_key st now mono =
        (selectScanState st now mono, .error .noKeysConfigured)) ∧
    (∀ k, (get_key st now mono).2 = .ok k ↔
      ∃ i, ∃ hi : i < (selectScanState st now mono).keys.length,
        ((selectScanState st now mono).keys.get ⟨i, hi⟩).1 = k ∧
        EligibleSpec (selectScanState st now mono).config
          (selectScanState st now mono).key_timestamps
          ((selectScanState st now mono).keys.get ⟨i, hi⟩) ∧
        ∀ j, ∀ hj : j < (selectScanState st now mono).keys.length, j < i →
          ¬ EligibleSpec (selectScanState st now mono).config
            (selectScanState st now mono).key_timestamps
            ((selectScanState st now mono).keys.get ⟨j, hj⟩)) ∧
    ((selectScanState st now mono).keys ≠ [] →
      (∀ p ∈ (selectScanState st now mono).keys,
        ¬ EligibleSpec (selectScanState st now mono).config
          (selectScanState st now mono).key_timestamps p) →
      get_key st now mono = (selectScanState st now mono, .error .allExhausted)) := by
  have hg : get_key st now mono =
      (if (selectScanState st now mono).keys.isEmpty
        then ((selectScanState st now mono), Except.error Err.noKeysConfigured)
        else match (selectScanState st now mono).keys.find?
              (keyEligible (selectScanState st now mono).config
                (selectScanState st now mono).key_timestamps) with
          | some p => ((selectScanState st now mono), Except.ok p.1)
          | none =>
              ((selectScanState st now mono), Except.error Err.allExhausted)) := rfl
  generalize hsel : selectScanState st now mono = s at hg ⊢
  refine ⟨?_, ?_, ?_⟩
  · intro hempty
    rw [hg, if_pos (by simp [hempty])]
  · intro k
    rw [hg]
    by_cases hempty : s.keys.isEmpty
    · have hkeys : s.keys = [] := by simpa [List.isEmpty_iff] using hempty
      rw [if_pos hempty]
      simp [hkeys]
    · rw [if_neg hempty]
      cases hfind : s.keys.find? (keyEligible s.config s.key_timestamps) with
      | none =>
          simp only [hfind]
          rw [List.find?_eq_none] at hfind
          constructor
          · intro h
            simp at h
          · rintro ⟨i, hi, hfst, helig, hfirst⟩
            have hmem := List.get_mem s.keys i hi
            have htrue := (eligibleSpec_iff _ _ _).mp helig
            exact absurd htrue (hfind _ hmem)
      | some p =>
          simp only [hfind]
          rw [find?_eq_some_first] at hfind
          obtain ⟨i, hi, hget, hpe, hfirst⟩ := hfind
          constructor
          · intro h
            have hk : p.1 = k := by simpa using h
            refine ⟨i, hi, by rw [hget]; exact hk, ?_, ?_⟩
            · rw [hget]
              exact (eligibleSpec_iff _ _ _).mpr hpe
            · intro j hj hji hE
              have hfalse := hfirst j hj hji
              have htrue := (eligibleSpec_iff _ _ _).mp hE
              rw [htrue] at hfalse
              cases hfalse
          · rintro ⟨i2, hi2, hfst2, helig2, hfirst2⟩
            have hii : i = i2 := by
              rcases Nat.lt_trichotomy i i2 with hlt | heq | hgt
              · have hEi : EligibleSpec s.config s.key_timestamps
                    (s.keys.get ⟨i, hi⟩) := by
                  rw [hget]
                  exact (eligibleSpec_iff _ _ _).mpr hpe
                exact absurd hEi (hfirst2 i hi hlt)
              · exact heq
              · have hfalse := hfirst i2 hi2 hgt
                have htrue := (eligibleSpec_iff _ _ _).mp helig2
                rw [htrue] at hfalse
                cases hfalse
            subst hii
            have hk : p.1 = k := by
              rw [← hget]
              exact hfst2
            simpa using hk
  · intro hne hall
    have hnone : s.keys.find? (keyEligible s.config s.key_timestamps) = none := by
      rw [List.find?_eq_none]
      intro x hx htrue
      exact hall x hx ((eligibleSpec_iff _ _ _).mpr htrue)
    rw [hg, if_neg (by simpa [List.isEmpty_iff] using hne), hnone]

theorem c1_select_key_witness :
    get_key stEmpty 5 0 = (selectScanState stEmpty 5 0, .error .noKeysConfigured) :=
  (c1_select_key stEmpty 5 0).1 (by decide)

theorem lookupKey_map_bump (k : String) :
    ∀ l : List (String × Nat),
      lookupKey (l.map (fun p => if p.1 == k then (p.1, p.2 + 1) else p)) k =
        (lookupKey l k).map (fun u => u + 1) := by
  intro l
  induction l with
  | nil => rfl
  | cons p t ih =>
      by_cases hk : p.1 = k
      · simp [lookupKey, List.find?_cons, hk]
      · simp only [List.map_cons]
        rw [if_neg (by simpa using hk)]
        unfold lookupKey
        rw [List.find?_cons, List.find?_cons]
        have : (p.1 == k) = false := by simpa using hk
        rw [this]
        exact ih

theorem lookupKey_none_congr (k : String) (st : ManagerState) (now : Nat) :
    (lookupKey (checkAndReset st now).keys k = none) ↔
      (lookupKey st.keys k = none) := by
  have h := lookupKey_isSome_congr k (checkAndReset st now).keys st.keys
    (checkAndReset_frame st now).2.2.2
  cases h1 : lookupKey (checkAndReset st now).keys k <;>
    cases h2 : lookupKey st.keys k <;> simp_all

/-- C3: `record_usage(key)` raises the unknown-key error exactly when `key` is
a non-empty string absent from the pool (and the state it leaves behind is
exactly the reconciled state); an empty/invalid key returns with the entire
state untouched; for a present key it increments that key's `usage_today` by
exactly one (relative to the reconciled state, i.e. strictly monotonic until a
reset), appends the monotonic timestamp to the key's rate window exactly when
`requests_per_minute` is set, and performs one persistence call. -/
theorem c3_record_usage (st : ManagerState) (k : String) (now : Nat) (mono : Int) :
    (∀ e st1, record_usage st k now mono = .error (e, st1) ↔
      (e = .unknownKey ∧ st1 = checkAndReset st now ∧ k ≠ "" ∧
        lookupKey st.keys k = none)) ∧
    (k = "" → record_usage st k now mono = .ok st) ∧
    (∀ u st1, k ≠ "" → lookupKey (checkAndReset st now).keys k = some u →
      record_usage st k now mono = .ok st1 →
      lookupKey st1.keys k = some (u + 1) ∧
      st1.key_timestamps = (match st.config.requests_per_minute with
        | some _ => appendTimestamp (checkAndReset st now).key_timestamps k mono
        | none => (checkAndReset st now).key_timestamps) ∧
      st1.save_count = (checkAndReset st now).save_count + 1) ∧
    (k ≠ "" → (lookupKey st.keys k).isSome = true →
      ∃ st1, record_usage st k now mono = .ok st1) := by
  refine ⟨?_, ?_, ?_, ?_⟩
  · intro e st1
    by_cases hk : k = ""
    · simp [record_usage, hk]
    · rw [← lookupKey_none_congr k st now]
      cases hl : lookupKey (checkAndReset st now).keys k with
      | none =>
          simp only [record_usage, hk, hl, if_neg hk]
          simp
          constructor
          · rintro ⟨h1, h2⟩
            exact ⟨h1.symm, h2.symm, hk⟩
          · rintro ⟨h1, h2, h3⟩
            exact ⟨h1.symm, h2.symm⟩
      | some u =>
          simp [record_usage, hk, hl]
  · intro hk
    simp [record_usage, hk]
  · intro u st1 hk hu heq
    have hne : (lookupKey (checkAndReset st now).keys k).isNone = false := by
      rw [hu]
      rfl
    have hcfg := (checkAndReset_frame st now).1
    simp only [record_usage, if_neg hk, hne, Bool.false_eq_true, if_false] at heq
    cases hrpm : (checkAndReset st now).config.requests_per_minute with
    | none =>
        rw [hrpm] at heq
        simp only [Except.ok.injEq] at heq
        subst heq
        refine ⟨?_, ?_, ?_⟩
        · rw [saveData_keys]
          have hb := lookupKey_map_bump k (checkAndReset st now).keys
          simp only [ManagerState.keys] at hb ⊢
          rw [hb, hu]
          rfl
        · rw [saveData_key_timestamps, ← hcfg, hrpm]
        · rfl
    | some r =>
        rw [hrpm] at heq
        simp only [Except.ok.injEq] at heq
        subst heq
        refine ⟨?_, ?_, ?_⟩
        · rw [saveData_keys]
          have hb := lookupKey_map_bump k (checkAndReset st now).keys
          simp only [ManagerState.keys] at hb ⊢
          rw [hb, hu]
          rfl
        · rw [saveData_key_timestamps, ← hcfg, hrpm]
        · rfl
  · intro hk hsome
    have hne : (lookupKey (checkAndReset st now).keys k).isNone = false := by
      have h := lookupKey_isSome_congr k (checkAndReset st now).keys st.keys
        (checkAndReset_frame st now).2.2.2
      rw [hsome] at h
      cases hcl : lookupKey (checkAndReset st now).keys k with
      | none => rw [hcl] at h; cases h
      | some v => rfl
    simp [record_usage, hk, hne]

theorem c3_record_usage_witness :
    lookupKey stPlainAfter.keys "k" = some (2 + 1) ∧
    stPlainAfter.key_timestamps = (match stPlain.config.requests_per_minute with
      | some _ => appendTimestamp (checkAndReset stPlain 0).key_timestamps "k" 0
      | none => (checkAndReset stPlain 0).key_timestamps) ∧
    stPlainAfter.save_count = (checkAndReset stPlain 0).save_count + 1 :=
  (c3_record_usage stPlain "k" 0 0).2.2.1 2 stPlainAfter (by decide) (by decide)
    (by decide)

/-- C9: the public `api_keys` attribute is a construction-time snapshot of the
loaded key mapping: `loadFromFile` sets it to the key names of the loaded
state, and neither `add_key` nor `remove_key` (on success or on error) ever
changes it — so it can permanently disagree with the authoritative `keys`
mapping that selection uses. -/
theorem c9_api_keys_stale (st : ManagerState) (k : String) (now : Nat) (mono : Int) :
    (∀ st1, add_key st k now = .ok st1 → st1.api_keys = st.api_keys) ∧
    (∀ e st1, add_key st k now = .error (e, st1) → st1.api_keys = st.api_keys) ∧
    (∀ st1, remove_key st k now = .ok st1 → st1.api_keys = st.api_keys) ∧
    (∀ e st1, remove_key st k now = .error (e, st1) → st1.api_keys = st.api_keys) ∧
    (∀ file args m, loadFromFile file args now mono = .ok m →
      m.api_keys = m.keys.map Prod.fst) := by
  have hapi := (checkAndReset_frame st now).2.1
  refine ⟨?_, ?_, ?_, ?_, ?_⟩
  · intro st1 h
    by_cases hk : k = ""
    · simp [add_key, hk] at h
    · by_cases hl : (lookupKey (checkAndReset st now).keys k).isSome = true
      · simp [add_key, hk, hl] at h
      · simp [add_key, hk, hl] at h
        rw [← h, saveData_api_keys]
        exact hapi
  · intro e st1 h
    by_cases hk : k = ""
    · simp [add_key, hk] at h
      rw [← h.2]
    · by_cases hl : (lookupKey (checkAndReset st now).keys k).isSome = true
      · simp [add_key, hk, hl] at h
        rw [← h.2]
        exact hapi
      · simp [add_key, hk, hl] at h
  · intro st1 h
    by_cases hl : (lookupKey (checkAndReset st now).keys k).isNone = true
    · simp [remove_key, hl] at h
    · simp [remove_key, hl] at h
      rw [← h, saveData_api_keys]
      exact hapi
  · intro e st1 h
    by_cases hl : (lookupKey (checkAndReset st now).keys k).isNone = true
    · simp [remove_key, hl] at h
      rw [← h.2]
      exact hapi
    · simp [remove_key, hl] at h
  · intro file args m h
    by_cases hv : validConfig (mergeConfig args (file.config.getD emptyConfig)) = true
    · simp [loadFromFile, hv] at h
      rw [← h]
    · simp [loadFromFile, hv] at h

theorem c9_api_keys_stale_witness :
    stDueReconciled.api_keys = stDue.api_keys :=
  (c9_api_keys_stale stDue "a" 86400 0).2.1 .duplicateKey stDueReconciled (by decide)

/-- C10: on the duplicate-key, not-found and unknown-key error paths, the
state carried by the raised error is exactly the reconciled state — the key
set is unchanged, but the reconciliation that already ran may have zeroed
every `usage_today`, advanced `lastResetTime` and persisted, so the failing
operation is not atomic with respect to the whole state. -/
theorem c10_error_paths (st : ManagerState) (k : String) (now : Nat) (mono : Int) :
    (∀ st1, add_key st k now = .error (.duplicateKey, st1) →
      st1 = checkAndReset st now ∧ st1.keys.map Prod.fst = st.keys.map Prod.fst) ∧
    (∀ st1, remove_key st k now = .error (.notFound, st1) →
      st1 = checkAndReset st now ∧ st1.keys.map Prod.fst = st.keys.map Prod.fst) ∧
    (∀ st1, record_usage st k now mono = .error (.unknownKey, st1) →
      st1 = checkAndReset st now ∧ st1.keys.map Prod.fst = st.keys.map Prod.fst) := by
  have hnames := (checkAndReset_frame st now).2.2.2
  refine ⟨?_, ?_, ?_⟩
  · intro st1 h
    by_cases hk : k = ""
    · simp [add_key, hk] at h
    · by_cases hl : (lookupKey (checkAndReset st now).keys k).isSome = true
      · simp [add_key, hk, hl] at h
        rw [← h]
        exact ⟨rfl, hnames⟩
      · simp [add_key, hk, hl] at h
  · intro st1 h
    by_cases hl : (lookupKey (checkAndReset st now).keys k).isNone = true
    · simp [remove_key, hl] at h
      rw [← h]
      exact ⟨rfl, hnames⟩
    · simp [remove_key, hl] at h
  · intro st1 h
    by_cases hk : k = ""
    · simp [record_usage, hk] at h
    · by_cases hl : (lookupKey (checkAndReset st now).keys k).isNone = true
      · simp [record_usage, hk, hl] at h
        rw [← h]
        exact ⟨rfl, hnames⟩
      · simp [record_usage, hk, hl] at h

theorem c10_error_paths_witness :
    stDueReconciled = checkAndReset stDue 86400 ∧
    stDueReconciled.keys.map Prod.fst = stDue.keys.map Prod.fst ∧
    lookupKey stDue.keys "a" = some 5 ∧
    lookupKey stDueReconciled.keys "a" = some 0 ∧
    stDueReconciled.last_reset_time = .ok 86400 ∧
    stDueReconciled.save_count = stDue.save_count + 1 := by
  have h := (c10_error_paths stDue "a" 86400 0).1 stDueReconciled (by decide)
  exact ⟨h.1, h.2, by decide, by decide, by decide, by decide⟩

theorem checkAndReset_lrt_ok (st : ManagerState) (now : Nat) :
    ∃ t, (checkAndReset st now).last_reset_time = StoredTime.ok t := by
  unfold checkAndReset
  cases h : st.last_reset_time with
  | ok last =>
      show ∃ t, (applyResetDecision st last now).last_reset_time = StoredTime.ok t
      rcases applyResetDecision_lrt st last now with h1 | h1
      · exact ⟨now, h1⟩
      · rw [h1]
        exact ⟨last, h⟩
  | bad => exact ⟨now, rfl⟩
  | missing =>
      show ∃ t, (applyResetDecision { st with last_reset_time := .ok now } now
        now).last_reset_time = StoredTime.ok t
      rcases applyResetDecision_lrt { st with last_reset_time := .ok now } now now
        with h1 | h1
      · exact ⟨now, h1⟩
      · rw [h1]
        exact ⟨now, rfl⟩

theorem saveData_file (st : ManagerState) (now : Nat) :
    (saveData st now).file = some (savedFileOf st now) := by
  unfold saveData savedFileOf repairedTime
  cases st.last_reset_time <;> rfl

theorem cleanupTimestamps_empty (st : ManagerState) (mono : Int)
    (h : st.key_timestamps = []) : cleanupTimestamps st mono = st := by
  obtain ⟨ks, lrt, cfg, ts, api, fl, sc⟩ := st
  have h2 : ts = [] := h
  subst h2
  unfold cleanupTimestamps
  rcases cfg with ⟨dl, rpm, rh, ri⟩
  cases rpm with
  | none => rfl
  | some r =>
      cases r with
      | zero => rfl
      | succ n => rfl

/-- C6: the invariant that `lastResetTime` is parseable is maintained by every
operation: reconciliation always leaves a parseable value, `_save_data_internal`
repairs before every write, construction repairs at load, and when
reconciliation meets an unparseable value it only repairs the field to now —
the reset decision is skipped, no counter is zeroed and no save happens. -/
theorem c6_last_reset_invariant (st : ManagerState) (now : Nat) :
    (∃ t, (checkAndReset st now).last_reset_time = StoredTime.ok t) ∧
    (∃ t, (saveData st now).last_reset_time = StoredTime.ok t) ∧
    (st.last_reset_time = .bad →
      checkAndReset st now = { st with last_reset_time := .ok now }) ∧
    (∀ file args mono m, loadFromFile file args now mono = .ok m →
      ∃ t, m.last_reset_time = StoredTime.ok t) := by
  refine ⟨checkAndReset_lrt_ok st now, saveData_lrt st now, ?_, ?_⟩
  · intro hbad
    unfold checkAndReset
    rw [hbad]
  · intro file args mono m h
    by_cases hv : validConfig (mergeConfig args (file.config.getD emptyConfig)) = true
    · simp [loadFromFile, hv] at h
      rw [← h]
      show ∃ t, (cleanupTimestamps (checkAndReset (loadedState file args now) now)
        mono).last_reset_time = StoredTime.ok t
      rw [(cleanupTimestamps_frame _ _).2.2.1]
      exact checkAndReset_lrt_ok _ _
    · simp [loadFromFile, hv] at h

theorem c6_last_reset_invariant_witness :
    checkAndReset stBad 7 = { stBad with last_reset_time := .ok 7 } :=
  (c6_last_reset_invariant stBad 7).2.2.1 rfl

/-- C4: for each of the four configuration fields independently, construction
from an existing file resolves the effective value to the caller-supplied
value when present (regardless of the persisted one), otherwise the persisted
value when present, otherwise absent. -/
theorem c4_config_precedence (file : SavedFile) (args : Config) (now : Nat)
    (mono : Int) (m : ManagerState)
    (hload : loadFromFile file args now mono = .ok m) :
    (m.config.daily_limit = match args.daily_limit with
      | some v => some v
      | none => (file.config.getD emptyConfig).daily_limit) ∧
    (m.config.requests_per_minute = match args.requests_per_minute with
      | some v => some v
      | none => (file.config.getD emptyConfig).requests_per_minute) ∧
    (m.config.reset_hour_utc = match args.reset_hour_utc with
      | some v => some v
      | none => (file.config.getD emptyConfig).reset_hour_utc) ∧
    (m.config.reset_interval_days = match args.reset_interval_days with
      | some v => some v
      | none => (file.config.getD emptyConfig).reset_interval_days) := by
  have hcfg : m.config = mergeConfig args (file.config.getD emptyConfig) := by
    by_cases hv : validConfig (mergeConfig args (file.config.getD emptyConfig)) = true
    · simp [loadFromFile, hv] at hload
      rw [← hload]
      show (cleanupTimestamps (checkAndReset (loadedState file args now) now)
        mono).config = _
      rw [(cleanupTimestamps_frame _ _).2.1, (checkAndReset_frame _ _).1]
      rfl
    · simp [loadFromFile, hv] at hload
  rw [hcfg]
  exact ⟨rfl, rfl, rfl, rfl⟩

theorem c4_config_precedence_witness :
    mLoaded.config.requests_per_minute = some 20 ∧
    mLoaded.config.daily_limit = some 50 := by
  have h := c4_config_precedence fileSaved argsRpm20 200 0 mLoaded (by decide)
  refine ⟨?_, ?_⟩
  · rw [h.2.1]
    decide
  · rw [h.1]
    decide

theorem map_saved_keys (l : List (String × Nat)) :
    (l.map (fun p => (p.1, some p.2))).map (fun p => (p.1, p.2.getD 0)) = l := by
  induction l with
  | nil => rfl
  | cons p t ih => simp [ih]

theorem loadedState_of_saved (st : ManagerState) (now now2 : Nat) :
    loadedState (savedFileOf st now) emptyConfig now2 = reloadBase st now := by
  unfold loadedState savedFileOf reloadBase parsedLoadTime
  simp [List.map_map, Function.comp, mergeConfig, mergeField, emptyConfig]
  constructor
  · have h := map_saved_keys st.keys
    simpa [List.map_map, Function.comp] using h
  · rfl

/-- C8: persistence round-trip — the file written by `_save_data_internal` is
`savedFileOf st now`; constructing a fresh manager from that file with no
constructor overrides succeeds (given a valid config) and, provided no reset
trigger is satisfied at reload time, reproduces the identical `usage_today`
value for every key and the identical resolved configuration. -/
theorem c8_round_trip (st : ManagerState) (now now2 : Nat) (mono : Int)
    (hvalid : validConfig st.config = true)
    (hnoreset : resetReason st.config (repairedTime st now) now2 = none) :
    (saveData st now).file = some (savedFileOf st now) ∧
    (∃ m, loadFromFile (savedFileOf st now) emptyConfig now2 mono = .ok m) ∧
    (∀ m, loadFromFile (savedFileOf st now) emptyConfig now2 mono = .ok m →
      m.keys = (saveData st now).keys ∧ m.config = st.config) := by
  have hA : checkAndReset (reloadBase st now) now2 = reloadBase st now :=
    checkAndReset_of_ok_none _ now2 (repairedTime st now) rfl hnoreset
  have hB : cleanupTimestamps (reloadBase st now) mono = reloadBase st now :=
    cleanupTimestamps_empty _ mono rfl
  have hv2 : validConfig (mergeConfig emptyConfig
      ((savedFileOf st now).config.getD emptyConfig)) = true := hvalid
  have hload : loadFromFile (savedFileOf st now) emptyConfig now2 mono =
      .ok { reloadBase st now with
            api_keys := (reloadBase st now).keys.map Prod.fst } := by
    unfold loadFromFile
    rw [loadedState_of_saved st now now2, hA, hB, if_pos hv2]
  refine ⟨saveData_file st now, ⟨_, hload⟩, ?_⟩
  intro m h
  rw [hload] at h
  have h2 := h
  simp only [Except.ok.injEq] at h2
  rw [← h2]
  exact ⟨saveData_keys st now ▸ rfl, rfl⟩

theorem c8_round_trip_witness :
    ∃ m, loadFromFile (savedFileOf stPlain 0) emptyConfig 50 0 = .ok m :=
  (c8_round_trip stPlain 0 50 0 (by decide) (by decide)).2.1

theorem lookupKey_evictStale_none (k : String) (mono : Int) :
    ∀ ts : List (String × List Int), (∀ q ∈ ts, q.1 ≠ k) →
      lookupKey (evictStaleWindows ts mono) k = none := by
  intro ts
  induction ts with
  | nil => intro _; rfl
  | cons p t ih =>
      intro h
      have hp : ¬ p.1 = k := h p (List.mem_cons_self p t)
      have ht := ih (fun q hq => h q (List.mem_cons_of_mem p hq))
      by_cases hE : (p.2.filter (fun x => decide (mono - 60 ≤ x))).isEmpty = true
      · simp only [evictStaleWindows, if_pos hE]
        exact ht
      · simp only [evictStaleWindows, if_neg hE]
        simpa [lookupKey, List.find?_cons, hp] using ht

theorem lookupKey_evictStale (k : String) (mono : Int) :
    ∀ ts : List (String × List Int), (ts.map Prod.fst).Nodup →
      lookupKey (evictStaleWindows ts mono) k =
        (match lookupKey ts k with
         | some l => if (l.filter (fun x => decide (mono - 60 ≤ x))).isEmpty
                     then none
                     else some (l.filter (fun x => decide (mono - 60 ≤ x)))
         | none => none) := by
  intro ts
  induction ts with
  | nil => intro _; rfl
  | cons p t ih =>
      intro hnd
      rw [List.map_cons, List.nodup_cons] at hnd
      obtain ⟨hp, hnd2⟩ := hnd
      by_cases hk : p.1 = k
      · have hbe : (p.1 == k) = true := by simpa using hk
        have hnone : ∀ q ∈ t, q.1 ≠ k := by
          intro q hq hqk
          exact hp ((hqk.trans hk.symm) ▸ List.mem_map_of_mem Prod.fst hq)
        by_cases hE : (p.2.filter (fun x => decide (mono - 60 ≤ x))).isEmpty = true
        · simp only [evictStaleWindows, if_pos hE]
          rw [lookupKey_evictStale_none k mono t hnone]
          have h2 : lookupKey (p :: t) k = some p.2 := by
            simp [lookupKey, List.find?_cons, hbe]
          rw [h2]
          show none = if (p.2.filter (fun x => decide (mono - 60 ≤ x))).isEmpty = true
            then none else some (p.2.filter (fun x => decide (mono - 60 ≤ x)))
          rw [if_pos hE]
        · simp only [evictStaleWindows, if_neg hE]
          have h1 : lookupKey ((p.1, p.2.filter (fun x => decide (mono - 60 ≤ x))) ::
              evictStaleWindows t mono) k =
              some (p.2.filter (fun x => decide (mono - 60 ≤ x))) := by
            simp [lookupKey, List.find?_cons, hbe]
          have h2 : lookupKey (p :: t) k = some p.2 := by
            simp [lookupKey, List.find?_cons, hbe]
          rw [h1, h2]
          show _ = if (p.2.filter (fun x => decide (mono - 60 ≤ x))).isEmpty = true
            then none else some (p.2.filter (fun x => decide (mono - 60 ≤ x)))
          rw [if_neg hE]
      · have hbe : (p.1 == k) = false := by simpa using hk
        by_cases hE : (p.2.filter (fun x => decide (mono - 60 ≤ x))).isEmpty = true
        · simp only [evictStaleWindows, if_pos hE]
          rw [ih hnd2]
          have h2 : lookupKey (p :: t) k = lookupKey t k := by
            simp [lookupKey, List.find?_cons, hbe]
          rw [h2]
        · simp only [evictStaleWindows, if_neg hE]
          have h1 : lookupKey ((p.1, p.2.filter (fun x => decide (mono - 60 ≤ x))) ::
              evictStaleWindows t mono) k = lookupKey (evictStaleWindows t mono) k := by
            simp [lookupKey, List.find?_cons, hbe]
          have h2 : lookupKey (p :: t) k = lookupKey t k := by
            simp [lookupKey, List.find?_cons, hbe]
          rw [h1, ih hnd2, h2]

theorem record_usage_ok_shape (st : ManagerState) (k : String) (now : Nat)
    (mono : Int) (hk : ¬ k = "")
    (hne : (lookupKey (checkAndReset st now).keys k).isNone = false)
    (st1 : ManagerState) (heq : record_usage st k now mono = .ok st1) :
    st1.key_timestamps =
      (match (checkAndReset st now).config.requests_per_minute with
        | some _ => appendTimestamp (checkAndReset st now).key_timestamps k mono
        | none => (checkAndReset st now).key_timestamps) := by
  simp only [record_usage, if_neg hk, hne, Bool.false_eq_true, if_false] at heq
  cases hrpm : (checkAndReset st now).config.requests_per_minute with
  | none =>
      rw [hrpm] at heq
      simp only [Except.ok.injEq] at heq
      rw [← heq, saveData_key_timestamps]
  | some r =>
      rw [hrpm] at heq
      simp only [Except.ok.injEq] at heq
      rw [← heq, saveData_key_timestamps]

/-- C5 (amended): stale-window eviction itself behaves as specified — for the
tracked keys (with distinct names) timestamps older than 60 seconds before now
are dropped and a key whose window empties is removed, and eviction is a no-op
when `requestsPerMinute` is absent — but it runs only inside `get_key`
(selection) and at construction: `add_key`, `remove_key`, `record_usage` and
`get_usage_stats` reconcile without evicting, carrying the rate windows over
unfiltered (`record_usage` only appends). -/
theorem c5_eviction_sites (st : ManagerState) (now : Nat) (mono : Int) (k : String) :
    (st.config.requests_per_minute = none → cleanupTimestamps st mono = st) ∧
    ((st.key_timestamps.map Prod.fst).Nodup →
      ∀ r, st.config.requests_per_minute = some r → 1 ≤ r →
      lookupKey (cleanupTimestamps st mono).key_timestamps k =
        (match lookupKey st.key_timestamps k with
         | some l => if (l.filter (fun x => decide (mono - 60 ≤ x))).isEmpty
                     then none
                     else some (l.filter (fun x => decide (mono - 60 ≤ x)))
         | none => none)) ∧
    ((get_key st now mono).1 = cleanupTimestamps (checkAndReset st now) mono) ∧
    (∀ st1, add_key st k now = .ok st1 →
      st1.key_timestamps = st.key_timestamps) ∧
    ((get_usage_stats st now).1.key_timestamps = st.key_timestamps) ∧
    (∀ st1, k ≠ "" → record_usage st k now mono = .ok st1 →
      st1.key_timestamps = (match st.config.requests_per_minute with
        | some _ => appendTimestamp st.key_timestamps k mono
        | none => st.key_timestamps)) ∧
    (∀ st1, remove_key st k now = .ok st1 →
      st1.key_timestamps = st.key_timestamps.filter (fun p => !(p.1 == k))) := by
  have hts := (checkAndReset_frame st now).2.2.1
  have hcfg := (checkAndReset_frame st now).1
  have hfst : (get_key st now mono).1 = cleanupTimestamps (checkAndReset st now) mono := by
    unfold get_key
    dsimp only
    split
    · rfl
    · split <;> rfl
  refine ⟨?_, ?_, hfst, ?_, hts, ?_, ?_⟩
  · intro hnone
    unfold cleanupTimestamps
    rw [hnone]
  · intro hnd r hr hr1
    unfold cleanupTimestamps
    rw [hr]
    cases r with
    | zero => cases hr1
    | succ n =>
        show lookupKey (evictStaleWindows st.key_timestamps mono) k = _
        exact lookupKey_evictStale k mono st.key_timestamps hnd
  · intro st1 h
    by_cases hk : k = ""
    · simp [add_key, hk] at h
    · by_cases hl : (lookupKey (checkAndReset st now).keys k).isSome = true
      · simp [add_key, hk, hl] at h
      · simp [add_key, hk, hl] at h
        rw [← h, saveData_key_timestamps]
        exact hts
  · intro st1 hk h
    by_cases hl : (lookupKey (checkAndReset st now).keys k).isNone = true
    · simp [record_usage, hk, hl] at h
    · have hl2 : (lookupKey (checkAndReset st now).keys k).isNone = false := by
        cases hx : lookupKey (checkAndReset st now).keys k with
        | none => rw [hx] at hl; exact absurd rfl hl
        | some v => rfl
      have hshape := record_usage_ok_shape st k now mono hk hl2 st1 h
      rw [hshape, hcfg, hts]
  · intro st1 h
    by_cases hl : (lookupKey (checkAndReset st now).keys k).isNone = true
    · simp [remove_key, hl] at h
    · simp [remove_key, hl] at h
      rw [← h, saveData_key_timestamps]
      show (checkAndReset st now).key_timestamps.filter (fun p => !(p.1 == k)) = _
      rw [hts]

theorem c5_eviction_sites_witness :
    lookupKey (cleanupTimestamps stStale 100).key_timestamps "k" =
      (match lookupKey stStale.key_timestamps "k" with
       | some l => if (l.filter (fun x => decide ((100 : Int) - 60 ≤ x))).isEmpty
                   then none
                   else some (l.filter (fun x => decide ((100 : Int) - 60 ≤ x)))
       | none => none) :=
  (c5_eviction_sites stStale 0 100 "k").2.1 (by decide) 5 rfl (by norm_num)

/-- C5 counterexample to the claim as stated: with `requests_per_minute = 5`
and a stale monotonic timestamp `0` tracked for key `"k"`, calling
`record_usage` at monotonic time `100` (cutoff 40) leaves the stale timestamp
in the window — the operation reconciles but does not evict, contradicting
the claim that every reconciling public operation evicts stale entries. -/
theorem c5_counterexample :
    resultWindow (record_usage stStale "k" 0 100) "k" = some [0, 100] ∧
    ((0 : Int) < 100 - 60) := ⟨by decide, by decide⟩
